import Mathlib

/-!
Verification of the data-transform pipeline of the Filipino Migrants
Analytics dashboard (`educ_occ_heatmap.py` and the page modules).

The Python code manipulates pandas DataFrames.  We embed the long-form
tables as lists of records, counts as exact rationals (the spec asks the
normalization property over exact rational arithmetic), and fallible
operations (the `return None` sentinels of the source) as `Option`.
Presentation-layer objects (Bokeh figures) are outside the spec's scope
and are not modelled; `get_heatmaps` is embedded down to the data it
hands to the renderer.
-/

/-- A long-form row produced by melting: `(year, category, count)`.
Education rows carry columns `(year, Educational_Attainment,
Education_Count)` and occupation rows `(year, Occupation,
Occupation_Count)` in the source; both have this shape. -/
structure CategoryCount where
  year : Int
  category : String
  count : ℚ
deriving DecidableEq

/-- A cell of the joint proportional distribution, the row schema
selected at the end of `estimate_joint`:
`(year, Educational_Attainment, Education_Count, Occupation,
Occupation_Count, Percent)`. -/
structure JointCell where
  year : Int
  category_a : String
  count_a : ℚ
  category_b : String
  count_b : ℚ
  percent : ℚ
deriving DecidableEq

/-- A row of the wide table: its year plus the value each column holds
in that row. -/
structure WideRow where
  year : Int
  val : String → ℚ

/-- A wide pandas DataFrame: a column schema and rows. -/
structure WideTable where
  columns : List String
  rows : List WideRow

/-- `EDUCATION_COLS` from `educ_occ_heatmap.py`. -/
def EDUCATION_COLS : List String :=
  ["college_graduate", "college_level",
   "elementary_graduate", "elementary_level",
   "high_school_graduate", "high_school_level",
   "no_formal_education", "non-formal_education",
   "not_reported_/_no_response", "not_of_schooling_age",
   "post_graduate", "post_graduate_level",
   "vocational_graduate", "vocational_level"]

/-- `OCCUPATION_COLS` from `educ_occ_heatmap.py`. -/
def OCCUPATION_COLS : List String :=
  ["administrative_workers", "clerical_workers",
   "equipment_operators,_&_laborers", "housewives",
   "members_of_the_armed_forces", "minors_(below_7_years_old)",
   "no_occupation_reported", "out_of_school_youth",
   "prof\x27l,_tech\x27l,_&_related_workers", "refugees",
   "retirees", "sales_workers", "service_workers",
   "students", "workers_&_fishermen"]

/-- `melt_education(df_year)`: keep the recognized education columns
present in the table and melt them into long form; pandas `melt` emits
one output row per (value column, input row) pair, value-column major.
An empty `available` yields the empty frame. -/
def melt_education (df_year : WideTable) : List CategoryCount :=
  if (EDUCATION_COLS.filter fun c => df_year.columns.contains c).isEmpty then []
  else (EDUCATION_COLS.filter fun c => df_year.columns.contains c).flatMap fun c =>
    df_year.rows.map fun r => { year := r.year, category := c, count := r.val c }

/-- `melt_occupation(df_year)`: same melt over `OCCUPATION_COLS`. -/
def melt_occupation (df_year : WideTable) : List CategoryCount :=
  if (OCCUPATION_COLS.filter fun c => df_year.columns.contains c).isEmpty then []
  else (OCCUPATION_COLS.filter fun c => df_year.columns.contains c).flatMap fun c =>
    df_year.rows.map fun r => { year := r.year, category := c, count := r.val c }

/-- Sum of a long-form frame's count column
(`educ_df["Education_Count"].sum()` / `occ_df["Occupation_Count"].sum()`). -/
def totalCount (rows : List CategoryCount) : ℚ :=
  (rows.map (·.count)).sum

/-- One output row of the cross join of `estimate_joint`, with
`educ_prop = Education_Count / total_educ`,
`occ_prop = Occupation_Count / total_occ` and
`Percent = (educ_prop * occ_prop) * 100`. -/
def mkJointCell (total_educ total_occ : ℚ) (e o : CategoryCount) : JointCell :=
  { year := e.year, category_a := e.category, count_a := e.count,
    category_b := o.category, count_b := o.count,
    percent := e.count / total_educ * (o.count / total_occ) * 100 }

/-- `estimate_joint(educ_df, occ_df)`: `None` when either input is empty
or has a zero count total, otherwise the cross join on `["year", "key"]`
(with `key` constantly 1, so rows pair exactly when their years agree)
carrying the computed `Percent`.  Over exact rationals the
`fillna(0.0)` on `Percent` is the identity: the guarded totals are
nonzero, so no NaN arises. -/
def estimate_joint (educ_df occ_df : List CategoryCount) :
    Option (List JointCell) :=
  if educ_df.isEmpty ∨ occ_df.isEmpty then none
  else if totalCount educ_df = 0 ∨ totalCount occ_df = 0 then none
  else some (educ_df.flatMap fun e =>
    (occ_df.filter fun o => o.year == e.year).map
      (mkJointCell (totalCount educ_df) (totalCount occ_df) e))

/-- Descending-by-count comparison used to model
`sort_values(..., ascending=False)` on a `(category, total)` table. -/
def countGE (a b : String × ℚ) : Prop := b.2 ≤ a.2

instance : DecidableRel countGE := fun a b =>
  inferInstanceAs (Decidable (b.2 ≤ a.2))

instance : IsTotal (String × ℚ) countGE := ⟨fun a b => le_total b.2 a.2⟩

instance : IsTrans (String × ℚ) countGE :=
  ⟨fun _ _ _ h h' => le_trans h' h⟩

/-- Sort a `(category, total)` table descending by total
(`sort_values("...Count", ascending=False)`). -/
def sortCountDesc (l : List (String × ℚ)) : List (String × ℚ) :=
  List.insertionSort countGE l

/-- `groupby(category, as_index=False)[count].sum()`: one row per
distinct category carrying the summed count; pandas sorts the group
keys. -/
def groupSum (rows : List CategoryCount) : List (String × ℚ) :=
  (List.insertionSort (· ≤ ·) (rows.map (·.category)).dedup).map fun c =>
    (c, ((rows.filter fun r => r.category == c).map (·.count)).sum)

/-- The top-K selection pattern of the pages
(`sort_values(count, ascending=False).head(k)` then take the category
names). -/
def topK (s : List (String × ℚ)) (k : Nat) : List String :=
  ((sortCountDesc s).take k).map (·.1)

/-- `educ_totals` of `get_heatmaps`: group the melted education frame by
category, sum, and sort descending by total. -/
def educ_totals (educ_df : List CategoryCount) : List (String × ℚ) :=
  sortCountDesc (groupSum educ_df)

/-- `top10_educ = educ_totals.head(10)["Educational_Attainment"].tolist()`. -/
def top10_educ (educ_df : List CategoryCount) : List String :=
  ((educ_totals educ_df).take 10).map (·.1)

/-- `bottom10_educ = educ_totals.tail(10)[...].tolist()`: pandas `tail(10)`
is the last 10 rows, i.e. drop all but the final `min(10, n)`. -/
def bottom10_educ (educ_df : List CategoryCount) : List String :=
  ((educ_totals educ_df).drop ((educ_totals educ_df).length - 10)).map (·.1)

/-- `df[df["year"] == int(year)]`. -/
def filterYear (t : WideTable) (y : Int) : WideTable :=
  { columns := t.columns, rows := t.rows.filter fun r => r.year == y }

/-- `get_heatmaps(year)` down to the data layer.  The source returns the
quadruple `(top_plot, bottom_plot, top_joint, bottom_joint)` and its
early exits return `None, None, None, None`; we model that sentinel as
`none` and the success branch as the joint tables from which the two
plots are built (the Bokeh figures themselves are presentation).  The
table `t` stands for the loaded CSV. -/
def get_heatmaps (t : WideTable) (year : Int) :
    Option (Option (List JointCell) × Option (List JointCell)) :=
  let df_year := filterYear t year
  if df_year.rows.isEmpty then none
  else
    let educ_df := melt_education df_year
    let occ_df := melt_occupation df_year
    if educ_df.isEmpty ∨ occ_df.isEmpty then none
    else
      let top10 := top10_educ educ_df
      let bottom10 := bottom10_educ educ_df
      let educ_top_df := educ_df.filter fun r => top10.contains r.category
      let educ_bottom_df := educ_df.filter fun r => bottom10.contains r.category
      some (estimate_joint educ_top_df occ_df,
            estimate_joint educ_bottom_df occ_df)

/-- `extract_insight(joint_df)`: `(None, None, None)` on a missing or
empty frame, otherwise the row at `joint_df["Percent"].idxmax()` — the
first row attaining the maximal `Percent`. -/
def extract_insight (joint_df : Option (List JointCell)) :
    Option (String × String × ℚ) :=
  match joint_df with
  | none => none
  | some [] => none
  | some (j :: js) =>
    let best := js.foldl (fun acc c => if acc.percent < c.percent then c else acc) j
    some (best.category_a, best.category_b, best.percent)

/-- The `country_mapping` dictionary of `1_Dashboard.py`. -/
def country_mapping : List (String × String) :=
  [("united_states_of_america", "USA"),
   ("united_arab_emirates", "United Arab Emirates"),
   ("united_kingdom", "United Kingdom"),
   ("saudi_arabia", "Saudi Arabia"),
   ("canada", "Canada"),
   ("australia", "Australia"),
   ("japan", "Japan"),
   ("singapore", "Singapore"),
   ("hongkong", "Hong Kong"),
   ("italy", "Italy"),
   ("germany", "Germany"),
   ("france", "France"),
   ("south_korea", "South Korea"),
   ("spain", "Spain"),
   ("malaysia", "Malaysia"),
   ("qatar", "Qatar"),
   ("kuwait", "Kuwait"),
   ("israel", "Israel"),
   ("china_(p.r.o.c.)", "China"),
   ("russian_federation_/_ussr", "Russia")]

/-- Python `str.replace('_', ' ')` for the single-character arguments
used at the call site: substitute each underscore by a space. -/
def underscoreToSpace (s : String) : String :=
  ⟨s.data.map fun c => if c = '_' then ' ' else c⟩

/-- Python `str.title()` on the character list: a letter following a
non-letter is uppercased, a letter following a letter is lowercased,
non-letters pass through.  The boolean tracks whether the previous
character was cased. -/
def pyTitleAux : Bool → List Char → List Char
  | _, [] => []
  | prevCased, c :: rest =>
    if c.isAlpha then
      (if prevCased then c.toLower else c.toUpper) :: pyTitleAux true rest
    else
      c :: pyTitleAux false rest

/-- Python `str.title()`. -/
def pyTitle (s : String) : String := ⟨pyTitleAux false s.data⟩

/-- The name normalizer of `1_Dashboard.py` line 835:
`country_mapping.get(country, country.replace('_', ' ').title())`. -/
def normalize_country (country : String) : String :=
  match country_mapping.lookup country with
  | some v => v
  | none => pyTitle (underscoreToSpace country)

/-! ## Helper lemmas -/

/-- On the non-degenerate branch `estimate_joint` is the cross join. -/
lemma estimate_joint_eq (A B : List CategoryCount)
    (hA : A ≠ []) (hB : B ≠ [])
    (hTA : totalCount A ≠ 0) (hTB : totalCount B ≠ 0) :
    estimate_joint A B = some (A.flatMap fun e =>
      (B.filter fun o => o.year == e.year).map
        (mkJointCell (totalCount A) (totalCount B) e)) := by
  simp [estimate_joint, List.isEmpty_iff, hA, hB, hTA, hTB]

/-- When every row of `B` carries year `y` and `e` does too, the merge
keeps all of `B`. -/
lemma filter_year_all (B : List CategoryCount) (y : Int)
    (hBy : ∀ r ∈ B, r.year = y) (e : CategoryCount) (hey : e.year = y) :
    (B.filter fun o => o.year == e.year) = B := by
  refine List.filter_eq_self.mpr fun o ho => ?_
  simp [hBy o ho, hey]

lemma flatMap_congr_of_mem {α β : Type} (l : List α) {f g : α → List β}
    (h : ∀ a ∈ l, f a = g a) : l.flatMap f = l.flatMap g := by
  induction l with
  | nil => rfl
  | cons a t ih =>
    simp only [List.flatMap_cons]
    rw [h a (List.mem_cons_self a t), ih fun x hx => h x (List.mem_cons_of_mem a hx)]

/-- Sum of a rectangular product of summands factors into the product
of the two marginal sums. -/
lemma flatMap_prod_sum {α β : Type} (A : List α) (B : List β)
    (f : α → ℚ) (g : β → ℚ) :
    (A.flatMap fun e => B.map fun o => f e * g o).sum
      = (A.map f).sum * (B.map g).sum := by
  induction A with
  | nil => simp
  | cons a t ih =>
    simp only [List.flatMap_cons, List.sum_append, List.map_cons, List.sum_cons, ih,
      List.sum_map_mul_left, add_mul]

lemma sum_map_const_nat {α : Type} (l : List α) (n : ℕ) :
    (l.map fun _ => n).sum = l.length * n := by
  induction l with
  | nil => simp
  | cons a t ih => simp [ih, Nat.succ_mul, Nat.add_comm]

/-! ## Claims about the joint estimator -/

/-- C1: for non-empty same-year inputs with positive totals the
percentages of the joint table sum to exactly 100 over exact rational
arithmetic. -/
theorem joint_percent_sum (A B : List CategoryCount) (y : Int)
    (hA : A ≠ []) (hB : B ≠ [])
    (hAy : ∀ r ∈ A, r.year = y) (hBy : ∀ r ∈ B, r.year = y)
    (hTA : 0 < totalCount A) (hTB : 0 < totalCount B) :
    ∃ js, estimate_joint A B = some js ∧ (js.map (·.percent)).sum = 100 := by
  have hTA' : totalCount A ≠ 0 := ne_of_gt hTA
  have hTB' : totalCount B ≠ 0 := ne_of_gt hTB
  refine ⟨_, estimate_joint_eq A B hA hB hTA' hTB', ?_⟩
  rw [List.map_flatMap]
  rw [flatMap_congr_of_mem A (g := fun e => B.map fun o =>
        (e.count * (totalCount A)⁻¹) * (o.count * ((totalCount B)⁻¹ * 100)))
      (fun e he => by
        rw [filter_year_all B y hBy e (hAy e he), List.map_map]
        refine List.map_congr_left fun o _ => ?_
        simp only [Function.comp_apply, mkJointCell]
        ring)]
  rw [flatMap_prod_sum A B (fun e => e.count * (totalCount A)⁻¹)
      (fun o => o.count * ((totalCount B)⁻¹ * 100))]
  rw [List.sum_map_mul_right, List.sum_map_mul_right]
  show totalCount A * (totalCount A)⁻¹ * (totalCount B * ((totalCount B)⁻¹ * 100)) = 100
  rw [mul_inv_cancel₀ hTA', one_mul, ← mul_assoc, mul_inv_cancel₀ hTB', one_mul]

/-- Education marginal of the end-to-end example of the spec. -/
def exEduc : List CategoryCount :=
  [{ year := 2020, category := "college", count := 600 },
   { year := 2020, category := "elementary", count := 400 }]

/-- Occupation marginal of the end-to-end example of the spec. -/
def exOcc : List CategoryCount :=
  [{ year := 2020, category := "nurse", count := 300 },
   { year := 2020, category := "farmer", count := 700 }]

/-- C1 witness: the concrete end-to-end example. -/
theorem joint_percent_sum_witness :
    exEduc ≠ [] ∧ exOcc ≠ [] ∧ (0 : ℚ) < totalCount exEduc ∧
    (0 : ℚ) < totalCount exOcc ∧
    ∃ js, estimate_joint exEduc exOcc = some js ∧
      (js.map (·.percent)).sum = 100 :=
  ⟨by decide, by decide, by norm_num [totalCount, exEduc],
   by norm_num [totalCount, exOcc],
   joint_percent_sum exEduc exOcc 2020 (by decide) (by decide)
     (by decide) (by decide) (by norm_num [totalCount, exEduc])
     (by norm_num [totalCount, exOcc])⟩

/-- C2: every produced joint cell carries
`percent = (count_a / total_a) * (count_b / total_b) * 100` with the
totals taken over the whole input distributions. -/
theorem joint_cell_formula (A B : List CategoryCount) (js : List JointCell)
    (h : estimate_joint A B = some js) :
    ∀ c ∈ js,
      c.percent = c.count_a / totalCount A * (c.count_b / totalCount B) * 100 := by
  intro c hc
  unfold estimate_joint at h
  split at h
  · exact absurd h (by simp)
  · split at h
    · exact absurd h (by simp)
    · injection h with h
      subst h
      simp only [List.mem_flatMap, List.mem_map] at hc
      obtain ⟨e, _, o, _, rfl⟩ := hc
      rfl

/-- The joint table of the end-to-end example. -/
def exJoint : List JointCell :=
  [{ year := 2020, category_a := "college", count_a := 600,
     category_b := "nurse", count_b := 300, percent := 18 },
   { year := 2020, category_a := "college", count_a := 600,
     category_b := "farmer", count_b := 700, percent := 42 },
   { year := 2020, category_a := "elementary", count_a := 400,
     category_b := "nurse", count_b := 300, percent := 12 },
   { year := 2020, category_a := "elementary", count_a := 400,
     category_b := "farmer", count_b := 700, percent := 28 }]

/-- First cell of the example joint table. -/
def exCell : JointCell :=
  { year := 2020, category_a := "college", count_a := 600,
    category_b := "nurse", count_b := 300, percent := 18 }

lemma estimate_joint_ex : estimate_joint exEduc exOcc = some exJoint := by
  norm_num [estimate_joint, totalCount, mkJointCell, exEduc, exOcc, exJoint,
    List.filter]

/-- C2 witness: the formula checked on a concrete cell of the example. -/
theorem joint_cell_formula_witness :
    estimate_joint exEduc exOcc = some exJoint ∧ exCell ∈ exJoint ∧
    exCell.percent
      = exCell.count_a / totalCount exEduc
        * (exCell.count_b / totalCount exOcc) * 100 :=
  ⟨estimate_joint_ex, List.mem_cons_self _ _,
   joint_cell_formula exEduc exOcc exJoint estimate_joint_ex exCell
     (List.mem_cons_self _ _)⟩

/-- C3: an empty input distribution or a zero total makes the estimator
return the `None` sentinel — no zero or NaN percentage table. -/
theorem estimate_joint_undefined (A B : List CategoryCount)
    (h : A = [] ∨ B = [] ∨ totalCount A = 0 ∨ totalCount B = 0) :
    estimate_joint A B = none := by
  rcases h with h | h | h | h <;> simp [estimate_joint, h, List.isEmpty_iff]

/-- C3 witness: the sentinel on an empty education distribution. -/
theorem estimate_joint_undefined_witness :
    (([] : List CategoryCount) = [] ∨ exOcc = []
      ∨ totalCount [] = 0 ∨ totalCount exOcc = 0) ∧
    estimate_joint [] exOcc = none :=
  ⟨Or.inl rfl, estimate_joint_undefined [] exOcc (Or.inl rfl)⟩

/-- C4: under the preconditions the joint table has `|A| * |B|` cells,
and permuting either input permutes the output, so the resulting
multiset of cells is order-independent. -/
theorem estimate_joint_size_perm (A A' B B' : List CategoryCount) (y : Int)
    (hA : A ≠ []) (hB : B ≠ [])
    (hTA : totalCount A ≠ 0) (hTB : totalCount B ≠ 0)
    (hAy : ∀ r ∈ A, r.year = y) (hBy : ∀ r ∈ B, r.year = y)
    (hpa : A.Perm A') (hpb : B.Perm B') :
    ∃ js js', estimate_joint A B = some js ∧ estimate_joint A' B' = some js'
      ∧ js.length = A.length * B.length ∧ js.Perm js' := by
  have hTAeq : totalCount A' = totalCount A :=
    (List.Perm.sum_eq (hpa.map fun r : CategoryCount => r.count)).symm
  have hTBeq : totalCount B' = totalCount B :=
    (List.Perm.sum_eq (hpb.map fun r : CategoryCount => r.count)).symm
  have hA' : A' ≠ [] := fun h => hA ((h ▸ hpa).eq_nil)
  have hB' : B' ≠ [] := fun h => hB ((h ▸ hpb).eq_nil)
  have hAy' : ∀ r ∈ A', r.year = y := fun r hr => hAy r (hpa.mem_iff.mpr hr)
  have hBy' : ∀ r ∈ B', r.year = y := fun r hr => hBy r (hpb.mem_iff.mpr hr)
  have hbodyA : (A.flatMap fun e => (B.filter fun o => o.year == e.year).map
        (mkJointCell (totalCount A) (totalCount B) e))
      = A.flatMap fun e => B.map (mkJointCell (totalCount A) (totalCount B) e) :=
    flatMap_congr_of_mem A fun e he => by
      rw [filter_year_all B y hBy e (hAy e he)]
  have hbodyA' : (A'.flatMap fun e => (B'.filter fun o => o.year == e.year).map
        (mkJointCell (totalCount A') (totalCount B') e))
      = A'.flatMap fun e => B'.map (mkJointCell (totalCount A) (totalCount B) e) := by
    rw [hTAeq, hTBeq]
    exact flatMap_congr_of_mem A' fun e he => by
      rw [filter_year_all B' y hBy' e (hAy' e he)]
  refine ⟨_, _, estimate_joint_eq A B hA hB hTA hTB,
    estimate_joint_eq A' B' hA' hB' (by rw [hTAeq]; exact hTA)
      (by rw [hTBeq]; exact hTB), ?_, ?_⟩
  · rw [hbodyA, List.length_flatMap]
    have hlen : (A.map (List.length ∘ fun e =>
          B.map (mkJointCell (totalCount A) (totalCount B) e)))
        = A.map fun _ => B.length :=
      List.map_congr_left fun e _ => by simp
    rw [hlen, sum_map_const_nat]
  · rw [hbodyA, hbodyA']
    exact (List.Perm.flatMap_right _ hpa).trans
      (List.Perm.flatMap_left A' fun a _ => hpb.map _)

/-- The education marginal of the example with its rows transposed. -/
def exEducSwapped : List CategoryCount :=
  [{ year := 2020, category := "elementary", count := 400 },
   { year := 2020, category := "college", count := 600 }]

/-- C4 witness: a concrete transposition of the education rows. -/
theorem estimate_joint_size_perm_witness :
    exEduc ≠ [] ∧ exOcc ≠ [] ∧ totalCount exEduc ≠ 0 ∧ totalCount exOcc ≠ 0 ∧
    ∃ js js', estimate_joint exEduc exOcc = some js
      ∧ estimate_joint exEducSwapped exOcc = some js'
      ∧ js.length = exEduc.length * exOcc.length ∧ js.Perm js' :=
  ⟨by decide, by decide, by norm_num [totalCount, exEduc],
   by norm_num [totalCount, exOcc],
   estimate_joint_size_perm exEduc exEducSwapped exOcc exOcc 2020
     (by decide) (by decide) (by norm_num [totalCount, exEduc])
     (by norm_num [totalCount, exOcc]) (by decide) (by decide)
     (List.Perm.swap _ _ _) (List.Perm.refl _)⟩

lemma flatMap_singleton_eq_map {α β : Type} (l : List α) (g : α → β) :
    (l.flatMap fun a => [g a]) = l.map g := by
  induction l with
  | nil => rfl
  | cons a t ih => simp only [List.flatMap_cons, List.map_cons, ih]; rfl

/-- On a single-row year slice, melting is one output row per available
education column. -/
lemma melt_education_single (t : WideTable) (r : WideRow) (h : t.rows = [r]) :
    melt_education t = (EDUCATION_COLS.filter fun c => t.columns.contains c).map
      fun c => { year := r.year, category := c, count := r.val c } := by
  unfold melt_education
  rw [h]
  by_cases hav : (EDUCATION_COLS.filter fun c => t.columns.contains c).isEmpty
  · rw [if_pos hav]
    rw [List.isEmpty_iff] at hav
    rw [hav]
    rfl
  · rw [if_neg hav]
    exact flatMap_singleton_eq_map _ _

/-- On a single-row year slice, melting is one output row per available
occupation column. -/
lemma melt_occupation_single (t : WideTable) (r : WideRow) (h : t.rows = [r]) :
    melt_occupation t = (OCCUPATION_COLS.filter fun c => t.columns.contains c).map
      fun c => { year := r.year, category := c, count := r.val c } := by
  unfold melt_occupation
  rw [h]
  by_cases hav : (OCCUPATION_COLS.filter fun c => t.columns.contains c).isEmpty
  · rw [if_pos hav]
    rw [List.isEmpty_iff] at hav
    rw [hav]
    rfl
  · rw [if_neg hav]
    exact flatMap_singleton_eq_map _ _

lemma count_category_map {g : String → CategoryCount}
    (hg : ∀ c, (g c).category = c) (l : List String) (c : String) :
    ((l.map g).filter fun x => x.category == c).length = l.count c := by
  rw [← List.countP_eq_length_filter, List.countP_map]
  have hfun : ((fun x : CategoryCount => x.category == c) ∘ g)
      = fun a => a == c := by
    funext a
    simp [Function.comp, hg]
  rw [hfun]
  rfl

lemma EDUCATION_COLS_nodup : EDUCATION_COLS.Nodup := by decide

lemma OCCUPATION_COLS_nodup : OCCUPATION_COLS.Nodup := by decide

/-- C5: on a year slice holding one wide row, each recognized column
present in the table yields exactly one melted row (carrying that row's
year), absent recognized columns yield none, and a table with no
recognized columns melts to the empty frame. -/
theorem melt_rows_spec (t : WideTable) (r : WideRow) (hrows : t.rows = [r]) :
    (∀ c ∈ EDUCATION_COLS,
      ((melt_education t).filter fun x => x.category == c).length
        = if t.columns.contains c then 1 else 0) ∧
    (∀ c ∈ OCCUPATION_COLS,
      ((melt_occupation t).filter fun x => x.category == c).length
        = if t.columns.contains c then 1 else 0) ∧
    (∀ x ∈ melt_education t, x.year = r.year) ∧
    (∀ x ∈ melt_occupation t, x.year = r.year) ∧
    ((∀ c ∈ EDUCATION_COLS, t.columns.contains c = false) →
      melt_education t = []) ∧
    ((∀ c ∈ OCCUPATION_COLS, t.columns.contains c = false) →
      melt_occupation t = []) := by
  refine ⟨?_, ?_, ?_, ?_, ?_, ?_⟩
  · intro c hc
    rw [melt_education_single t r hrows, count_category_map (fun _ => rfl)]
    by_cases hcol : t.columns.contains c = true
    · rw [if_pos hcol,
        List.count_eq_one_of_mem (EDUCATION_COLS_nodup.filter _)
          (List.mem_filter.mpr ⟨hc, hcol⟩)]
    · rw [if_neg hcol,
        List.count_eq_zero_of_not_mem
          fun hmem => hcol (List.mem_filter.mp hmem).2]
  · intro c hc
    rw [melt_occupation_single t r hrows, count_category_map (fun _ => rfl)]
    by_cases hcol : t.columns.contains c = true
    · rw [if_pos hcol,
        List.count_eq_one_of_mem (OCCUPATION_COLS_nodup.filter _)
          (List.mem_filter.mpr ⟨hc, hcol⟩)]
    · rw [if_neg hcol,
        List.count_eq_zero_of_not_mem
          fun hmem => hcol (List.mem_filter.mp hmem).2]
  · intro x hx
    rw [melt_education_single t r hrows] at hx
    obtain ⟨c, -, rfl⟩ := List.mem_map.mp hx
    rfl
  · intro x hx
    rw [melt_occupation_single t r hrows] at hx
    obtain ⟨c, -, rfl⟩ := List.mem_map.mp hx
    rfl
  · intro habs
    have hfil : (EDUCATION_COLS.filter fun c => t.columns.contains c) = [] :=
      List.filter_eq_nil_iff.mpr fun c hc => by rw [habs c hc]; simp
    unfold melt_education
    rw [hfil]
    rfl
  · intro habs
    have hfil : (OCCUPATION_COLS.filter fun c => t.columns.contains c) = [] :=
      List.filter_eq_nil_iff.mpr fun c hc => by rw [habs c hc]; simp
    unfold melt_occupation
    rw [hfil]
    rfl

/-- A one-row wide table for the witnesses. -/
def exRow : WideRow := { year := 2020, val := fun _ => 5 }

/-- A wide table holding `exRow` with two recognized education columns
and one recognized occupation column. -/
def exTable : WideTable :=
  { columns := ["year", "college_graduate", "students", "high_school_level"],
    rows := [exRow] }

/-- C5 witness: the single-row table `exTable`. -/
theorem melt_rows_spec_witness :
    exTable.rows = [exRow] ∧
    ((∀ c ∈ EDUCATION_COLS,
      ((melt_education exTable).filter fun x => x.category == c).length
        = if exTable.columns.contains c then 1 else 0) ∧
    (∀ c ∈ OCCUPATION_COLS,
      ((melt_occupation exTable).filter fun x => x.category == c).length
        = if exTable.columns.contains c then 1 else 0) ∧
    (∀ x ∈ melt_education exTable, x.year = exRow.year) ∧
    (∀ x ∈ melt_occupation exTable, x.year = exRow.year) ∧
    ((∀ c ∈ EDUCATION_COLS, exTable.columns.contains c = false) →
      melt_education exTable = []) ∧
    ((∀ c ∈ OCCUPATION_COLS, exTable.columns.contains c = false) →
      melt_occupation exTable = [])) :=
  ⟨rfl, melt_rows_spec exTable exRow rfl⟩

/-- C6: the top-K selection keeps exactly `min(k, |S|)` category names,
and (for category-unique inputs, the per-table uniqueness invariant)
every selected category's count is at least every unselected one's;
fewer than K categories means all are returned. -/
theorem topK_spec (s : List (String × ℚ)) (k : Nat)
    (hnd : (s.map Prod.fst).Nodup) :
    (topK s k).length = min k s.length ∧
    ∀ a ∈ s, ∀ b ∈ s, a.1 ∈ topK s k → b.1 ∉ topK s k → b.2 ≤ a.2 := by
  have hperm : (sortCountDesc s).Perm s := List.perm_insertionSort countGE s
  have hsorted : List.Sorted countGE (sortCountDesc s) :=
    List.sorted_insertionSort countGE s
  constructor
  · rw [topK, List.length_map, List.length_take, hperm.length_eq]
  · intro a ha b hb hatop hbtop
    obtain ⟨p, hp, hpa⟩ := List.mem_map.mp hatop
    have hpmem : p ∈ s := hperm.mem_iff.mp (List.mem_of_mem_take hp)
    have hpa' : p = a :=
      List.inj_on_of_nodup_map hnd hpmem ha hpa
    subst hpa'
    have hbmem : b ∈ (sortCountDesc s).take k ++ (sortCountDesc s).drop k := by
      rw [List.take_append_drop]
      exact hperm.mem_iff.mpr hb
    rcases List.mem_append.mp hbmem with hbt | hbd
    · exact absurd (List.mem_map_of_mem _ hbt) hbtop
    · have hpw : List.Pairwise countGE
          ((sortCountDesc s).take k ++ (sortCountDesc s).drop k) := by
        rw [List.take_append_drop]
        exact hsorted
      exact (List.pairwise_append.mp hpw).2.2 p hp b hbd

/-- A concrete occupation/count table for the C6 witness. -/
def exCounts : List (String × ℚ) :=
  [("students", 5), ("housewives", 9), ("refugees", 1)]

/-- C6 witness: top-2 of a three-category table. -/
theorem topK_spec_witness :
    (exCounts.map Prod.fst).Nodup ∧
    ((topK exCounts 2).length = min 2 exCounts.length ∧
      ∀ a ∈ exCounts, ∀ b ∈ exCounts,
        a.1 ∈ topK exCounts 2 → b.1 ∉ topK exCounts 2 → b.2 ≤ a.2) :=
  ⟨by decide, topK_spec exCounts 2 (by decide)⟩

lemma lookup_mem : ∀ {l : List (String × String)} {a b : String},
    l.lookup a = some b → (a, b) ∈ l := by
  intro l
  induction l with
  | nil => intro a b h; simp [List.lookup] at h
  | cons p t ih =>
    intro a b h
    obtain ⟨k, v⟩ := p
    by_cases hk : (a == k) = true
    · simp only [List.lookup, hk, cond_true, Option.some.injEq] at h
      have hak : a = k := eq_of_beq hk
      exact hak ▸ h ▸ List.mem_cons_self _ _
    · simp only [List.lookup, hk, cond_false] at h
      exact List.mem_cons_of_mem _ (ih h)

lemma pyTitleAux_length (l : List Char) :
    ∀ b, (pyTitleAux b l).length = l.length := by
  induction l with
  | nil => intro b; rfl
  | cons c t ih =>
    intro b
    unfold pyTitleAux
    by_cases hc : c.isAlpha
    · simp [hc, ih]
    · simp [hc, ih]

lemma country_mapping_vals_nonempty : ∀ p ∈ country_mapping, p.2 ≠ "" := by
  decide

lemma normalize_fallback_length (s : String) :
    (pyTitle (underscoreToSpace s)).data.length = s.data.length := by
  show (pyTitleAux false (underscoreToSpace s).data).length = s.data.length
  rw [pyTitleAux_length]
  show ((s.data.map fun c => if c = '_' then ' ' else c)).length = s.data.length
  rw [List.length_map]

/-- C7 counterexample: the claim promises a non-empty display string for
every input, but the normalizer maps the empty string (not a mapping
key) to the title-cased empty string, which is empty. -/
theorem normalize_country_empty_input : normalize_country "" = "" := by
  decide

/-- C7 amended: the normalizer is total — mapped keys return their
display name exactly, unmapped keys the title-cased fallback — and the
result is non-empty whenever the input is non-empty. -/
theorem normalize_country_spec (s : String) :
    (∀ v, country_mapping.lookup s = some v → normalize_country s = v) ∧
    (country_mapping.lookup s = none →
      normalize_country s = pyTitle (underscoreToSpace s)) ∧
    (s ≠ "" → normalize_country s ≠ "") := by
  refine ⟨?_, ?_, ?_⟩
  · intro v hv
    unfold normalize_country
    rw [hv]
  · intro hn
    unfold normalize_country
    rw [hn]
  · intro hs
    unfold normalize_country
    cases hv : country_mapping.lookup s with
    | some v => exact country_mapping_vals_nonempty (s, v) (lookup_mem hv)
    | none =>
      intro heq
      apply hs
      have hlen := congrArg (fun x : String => x.data.length) heq
      simp only [normalize_fallback_length] at hlen
      have hnil : s.data = [] := List.length_eq_zero.mp hlen
      exact String.ext (by rw [hnil])

/-- C7 witness for the amended claim: a mapped key returns its display
name; a non-empty unmapped key returns a non-empty fallback. -/
theorem normalize_country_spec_witness :
    country_mapping.lookup "saudi_arabia" = some "Saudi Arabia" ∧
    normalize_country "saudi_arabia" = "Saudi Arabia" ∧
    ("east_asia" : String) ≠ "" ∧ normalize_country "east_asia" ≠ "" :=
  ⟨by decide,
   (normalize_country_spec "saudi_arabia").1 "Saudi Arabia" (by decide),
   by decide,
   (normalize_country_spec "east_asia").2.2 (by decide)⟩

lemma foldl_best_mem :
    ∀ (js : List JointCell) (j : JointCell),
      js.foldl (fun acc c => if acc.percent < c.percent then c else acc) j
        ∈ j :: js := by
  intro js
  induction js with
  | nil => intro j; simp
  | cons b t ih =>
    intro j
    simp only [List.foldl_cons]
    rcases List.mem_cons.mp (ih (if j.percent < b.percent then b else j))
        with h | h
    · rw [h]
      split
      · exact List.mem_cons_of_mem _ (List.mem_cons_self _ _)
      · exact List.mem_cons_self _ _
    · exact List.mem_cons_of_mem _ (List.mem_cons_of_mem _ h)

lemma foldl_best_ge :
    ∀ (js : List JointCell) (j : JointCell), ∀ c ∈ j :: js,
      c.percent ≤ (js.foldl
        (fun acc c => if acc.percent < c.percent then c else acc) j).percent := by
  intro js
  induction js with
  | nil =>
    intro j c hc
    rw [List.mem_singleton.mp hc]
    exact le_refl _
  | cons b t ih =>
    intro j c hc
    simp only [List.foldl_cons]
    have hjle : j.percent ≤ (if j.percent < b.percent then b else j).percent := by
      split
      · exact le_of_lt (by assumption)
      · exact le_refl _
    have hble : b.percent ≤ (if j.percent < b.percent then b else j).percent := by
      split
      · exact le_refl _
      · exact le_of_not_lt (by assumption)
    have hstep := ih (if j.percent < b.percent then b else j)
    rcases List.mem_cons.mp hc with h | h
    · subst h
      exact le_trans hjle (hstep _ (List.mem_cons_self _ _))
    · rcases List.mem_cons.mp h with h' | h'
      · subst h'
        exact le_trans hble (hstep _ (List.mem_cons_self _ _))
      · exact hstep c (List.mem_cons_of_mem _ h')

/-- The three-cell joint table of the spec's strongest-cell example. -/
def exABC : List JointCell :=
  [{ year := 2020, category_a := "A", count_a := 0,
     category_b := "B", count_b := 0, percent := 10 },
   { year := 2020, category_a := "A", count_a := 0,
     category_b := "C", count_b := 0, percent := 40 },
   { year := 2020, category_a := "D", count_a := 0,
     category_b := "B", count_b := 0, percent := 25 }]

/-- C8: on a non-empty joint table `extract_insight` returns the triple
of a cell of maximal percent, and on the concrete set
`{(A,B,10), (A,C,40), (D,B,25)}` it returns `(A, C, 40)`. -/
theorem extract_insight_spec :
    (∀ l : List JointCell, l ≠ [] →
      ∃ best ∈ l, extract_insight (some l)
          = some (best.category_a, best.category_b, best.percent)
        ∧ ∀ c ∈ l, c.percent ≤ best.percent) ∧
    extract_insight (some exABC) = some ("A", "C", 40) := by
  constructor
  · intro l hl
    rcases l with _ | ⟨j, js⟩
    · exact absurd rfl hl
    · exact ⟨_, foldl_best_mem js j, rfl, foldl_best_ge js j⟩
  · norm_num [extract_insight, exABC]

/-- C8 witness: the general part applied to the concrete example
table. -/
theorem extract_insight_spec_witness :
    exABC ≠ [] ∧
    ∃ best ∈ exABC, extract_insight (some exABC)
        = some (best.category_a, best.category_b, best.percent)
      ∧ ∀ c ∈ exABC, c.percent ≤ best.percent :=
  ⟨by decide, extract_insight_spec.1 exABC (by decide)⟩

/-- C9: a year with no row in the table, or an empty melted education or
occupation frame, makes `get_heatmaps` return the all-`None` sentinel
instead of raising or fabricating zero rows. -/
theorem get_heatmaps_sentinel (t : WideTable) (y : Int)
    (h : (filterYear t y).rows = [] ∨ melt_education (filterYear t y) = []
      ∨ melt_occupation (filterYear t y) = []) :
    get_heatmaps t y = none := by
  rcases h with h | h | h <;> simp [get_heatmaps, h, List.isEmpty_iff]

/-- A table with a recognized column schema but no rows. -/
def exNoRows : WideTable := { columns := ["college_graduate"], rows := [] }

/-- C9 witness: a requested year absent from the table. -/
theorem get_heatmaps_sentinel_witness :
    ((filterYear exNoRows 2020).rows = []
      ∨ melt_education (filterYear exNoRows 2020) = []
      ∨ melt_occupation (filterYear exNoRows 2020) = []) ∧
    get_heatmaps exNoRows 2020 = none :=
  ⟨Or.inl rfl, get_heatmaps_sentinel exNoRows 2020 (Or.inl rfl)⟩

/-- C10: top-10 and bottom-10 are the two ends of the one descending
`educ_totals` order, so with fewer than 20 categories they overlap and
with at most 10 they coincide. -/
theorem top_bottom_selection (educ_df : List CategoryCount) :
    (List.Sorted countGE (educ_totals educ_df) ∧
      top10_educ educ_df = ((educ_totals educ_df).take 10).map Prod.fst ∧
      bottom10_educ educ_df = ((educ_totals educ_df).drop
        ((educ_totals educ_df).length - 10)).map Prod.fst) ∧
    (educ_totals educ_df ≠ [] → (educ_totals educ_df).length < 20 →
      ∃ c, c ∈ top10_educ educ_df ∧ c ∈ bottom10_educ educ_df) ∧
    ((educ_totals educ_df).length ≤ 10 →
      top10_educ educ_df = bottom10_educ educ_df) := by
  refine ⟨⟨List.sorted_insertionSort countGE _, rfl, rfl⟩, ?_, ?_⟩
  · intro hne hlt
    have hn0 : 0 < (educ_totals educ_df).length := List.length_pos.mpr hne
    have hidx : (educ_totals educ_df).length - 10
        < (educ_totals educ_df).length := by omega
    have hb1 : (educ_totals educ_df).length - 10
        < ((educ_totals educ_df).take 10).length := by
      rw [List.length_take]
      omega
    have ht : ((educ_totals educ_df).take 10).get ⟨_, hb1⟩
        = (educ_totals educ_df).get ⟨_, hidx⟩ := List.getElem_take _
    have hb2 : 0 < ((educ_totals educ_df).drop
        ((educ_totals educ_df).length - 10)).length := by
      rw [List.length_drop]
      omega
    have hd : ((educ_totals educ_df).drop
          ((educ_totals educ_df).length - 10)).get ⟨0, hb2⟩
        = (educ_totals educ_df).get ⟨_, hidx⟩ := by
      simp only [List.get_eq_getElem]
      rw [List.getElem_drop]
      simp
    refine ⟨((educ_totals educ_df).get ⟨_, hidx⟩).1, ?_, ?_⟩
    · exact List.mem_map_of_mem Prod.fst (ht ▸ List.getElem_mem hb1)
    · exact List.mem_map_of_mem Prod.fst (hd ▸ List.getElem_mem hb2)
  · intro hle
    have h1 : (educ_totals educ_df).take 10 = educ_totals educ_df :=
      List.take_of_length_le hle
    have h2 : (educ_totals educ_df).drop
        ((educ_totals educ_df).length - 10) = educ_totals educ_df := by
      have hz : (educ_totals educ_df).length - 10 = 0 := by omega
      rw [hz, List.drop_zero]
    show ((educ_totals educ_df).take 10).map Prod.fst
      = ((educ_totals educ_df).drop
          ((educ_totals educ_df).length - 10)).map Prod.fst
    rw [h1, h2]

/-- A one-category education frame for the C10 witness. -/
def exSingle : List CategoryCount :=
  [{ year := 2020, category := "college", count := 600 }]

/-- C10 witness: with a single education category the two selections
overlap and coincide. -/
theorem top_bottom_selection_witness :
    educ_totals exSingle ≠ [] ∧ (educ_totals exSingle).length < 20 ∧
    (∃ c, c ∈ top10_educ exSingle ∧ c ∈ bottom10_educ exSingle) ∧
    ((educ_totals exSingle).length ≤ 10 ∧
      top10_educ exSingle = bottom10_educ exSingle) := by
  have hlen : (educ_totals exSingle).length = 1 := by
    rw [educ_totals, sortCountDesc, List.length_insertionSort, groupSum,
      List.length_map, List.length_insertionSort]
    decide
  have hne : educ_totals exSingle ≠ [] :=
    List.length_pos.mp (by rw [hlen]; norm_num)
  exact ⟨hne, by rw [hlen]; norm_num,
    (top_bottom_selection exSingle).2.1 hne (by rw [hlen]; norm_num),
    by rw [hlen]; norm_num,
    (top_bottom_selection exSingle).2.2 (by rw [hlen]; norm_num)⟩
